import Mathlib

/-!
# Recipient resource: diff suppression, Read and two-phase Update

A shallow embedding of `sharing/resource_recipient.go`.

* Go strings are modelled by `String`; the two string constants the code
  tests against are ASCII.
* `map[string]string` is an association list with pairwise distinct keys;
  the order of its entries stands for the (unspecified) iteration order of a
  Go `range` loop.
* The remote recipient service is a state-passing interface: each operation
  takes the state of the remote side and returns its answer with the next
  state.  Nothing is assumed about it.
* `error` values are `Option (Err ε)`, `none` being `nil`.
-/

namespace sharing

/-! ## Strings -/

/-- Go `strings.HasPrefix(s, p)`: `s` starts with `p`. -/
def HasPrefix (s p : String) : Bool :=
  p.data.isPrefixOf s.data

/-! ## Errors -/

/-- Go `error` values that the resource can see: errors produced by the
client and the remote service (`remote`), and the combined error built by
`common.OwnerRollbackError` (`rollback`). -/
inductive Err (ε : Type) where
  | remote : ε → Err ε
  | rollback : Err ε → Err ε → String → String → Err ε
  deriving DecidableEq, Repr

/-- Modelled from the spec: `common.OwnerRollbackError` is not part of the
source file.  The spec describes its result as a combined error carrying the
original failure, the rollback failure, and the old and new owner values; it
is a new error value built from these four arguments. -/
def OwnerRollbackError {ε : Type} (err rollbackErr : Err ε) (oldOwner newOwner : String) :
    Err ε :=
  Err.rollback err rollbackErr oldOwner newOwner

/-! ## Diff suppression -/

/-- The function `recepientPropertiesSuppressDiff(k, old, new, d)`.  The
`*schema.ResourceData` argument is not used by the body and the debug log
line has no effect on the result; both are left out. -/
def recepientPropertiesSuppressDiff (k old new : String) : Bool :=
  let isPossiblySetAutomatically :=
    k == "properties_kvpairs.0.properties.%" && old == "1" && new == "0"
  let isAutoGeneratedName :=
    HasPrefix k "properties_kvpairs.0.properties.databricks." && new == ""
  if isPossiblySetAutomatically || isAutoGeneratedName then
    true
  else
    false

/-! ## Requests, responses and resource state -/

/-- Go `map[string]string`. -/
abbrev StringMap := AList (fun _ : String => String)

/-- The SDK request struct `sharing.UpdateRecipient`.  The source names two
of its fields, `Name` and `Owner`; all remaining fields are kept together in
`Rest`, whose type is a parameter.  `default : ρ` is the Go zero value of the
remaining fields, as left by a composite literal that does not mention
them. -/
structure UpdateRecipient (ρ : Type) where
  Name : String
  Owner : String
  Rest : ρ
  deriving DecidableEq, Repr

/-- The SDK struct `sharing.SecurablePropertiesKvPairs`. -/
structure SecurablePropertiesKvPairs where
  Properties : StringMap

/-- The SDK response struct `sharing.RecipientInfo`.  The source names the
field `PropertiesKvpairs`, a pointer that may be nil; the remaining fields
are kept together in `Rest`. -/
structure RecipientInfo (ι : Type) where
  PropertiesKvpairs : Option SecurablePropertiesKvPairs
  Rest : ι

/-- What `Update` reads from `*schema.ResourceData`: the resource id, the
value of `owner` in the prior state, the planned values as
`common.DataToStructPointer` maps them into an `UpdateRecipient` (the planned
owner is its `Owner` field), and the answer of `HasChangeExcept("owner")`. -/
structure ResourceData (ρ : Type) where
  id : String
  priorOwner : String
  planned : UpdateRecipient ρ
  changedExceptOwner : Bool
  deriving DecidableEq, Repr

/-- Go `d.Id()`. -/
def ResourceData.Id {ρ : Type} (d : ResourceData ρ) : String := d.id

/-- Go `d.GetChange("owner")`: the old and the new value of `owner`.  The new
value is the planned owner, the same value that `common.DataToStructPointer`
reads into the `Owner` field of the request. -/
def ResourceData.GetChangeOwner {ρ : Type} (d : ResourceData ρ) : String × String :=
  (d.priorOwner, d.planned.Owner)

/-- Go `d.HasChange("owner")`: the old and new value of `owner` differ. -/
def ResourceData.HasChangeOwner {ρ : Type} (d : ResourceData ρ) : Bool :=
  decide (d.GetChangeOwner.1 ≠ d.GetChangeOwner.2)

/-- Go `d.HasChangeExcept("owner")`: some field other than `owner` differs. -/
def ResourceData.HasChangeExceptOwner {ρ : Type} (d : ResourceData ρ) : Bool :=
  d.changedExceptOwner

/-- Go `common.DataToStructPointer(d, recipientSchema, &updateRecipientRequest)`:
the planned values as an update request. -/
def DataToStructPointer {ρ : Type} (d : ResourceData ρ) : UpdateRecipient ρ :=
  d.planned

/-! ## The remote service -/

/-- The two operations of `w.Recipients` that `Read` and `Update` call.  `σ`
is the state of the remote side. -/
structure RecipientsAPI (σ ρ ι ε : Type) where
  GetByName : String → σ → Except (Err ε) (RecipientInfo ι) × σ
  Update : UpdateRecipient ρ → σ → Option (Err ε) × σ

/-- The SDK handle `*databricks.WorkspaceClient`. -/
structure WorkspaceClient (σ ρ ι ε : Type) where
  Recipients : RecipientsAPI σ ρ ι ε

/-- The handle `*common.DatabricksClient`: `c.WorkspaceClient()` yields a
workspace client or an error. -/
structure DatabricksClient (σ ρ ι ε : Type) where
  WorkspaceClient : Except (Err ε) (WorkspaceClient σ ρ ι ε)

/-- The remote state together with a record of the update calls issued so
far, each with the request sent and the error returned (`none` for nil).  The
record is only written by `callUpdate`; the code never reads it. -/
structure World (σ ρ ε : Type) where
  remote : σ
  calls : List (UpdateRecipient ρ × Option (Err ε))

/-- One call `w.Recipients.Update(ctx, req)`, recorded in the call list. -/
def callUpdate {σ ρ ι ε : Type} (w : WorkspaceClient σ ρ ι ε) (req : UpdateRecipient ρ)
    (s : World σ ρ ε) : Option (Err ε) × World σ ρ ε :=
  let r := w.Recipients.Update req s.remote
  (r.1, ⟨r.2, s.calls ++ [(req, r.1)]⟩)

/-! ## Read -/

/-- The loop of `Read` over the fetched property map: for each key of the
map, delete it when it starts with `databricks.`. -/
def stripDatabricksProperties (m : StringMap) : StringMap :=
  m.keys.foldl (fun acc k => if HasPrefix k "databricks." then acc.erase k else acc) m

/-- The `Read` function of the resource.  `StructToData` stands for
`common.StructToData(ri, recipientSchema, d)`, which is not part of the source
file: it receives the recipient and the resource data and returns an error or
nil together with the updated resource data. -/
def Read {σ ρ ι ε : Type}
    (StructToData : RecipientInfo ι → ResourceData ρ → Option (Err ε) × ResourceData ρ)
    (c : DatabricksClient σ ρ ι ε) (d : ResourceData ρ) (s : σ) :
    Option (Err ε) × ResourceData ρ × σ :=
  match c.WorkspaceClient with
  | .error err => (some err, d, s)
  | .ok w =>
    match w.Recipients.GetByName d.Id s with
    | (.error err, s1) => (some err, d, s1)
    | (.ok ri, s1) =>
      let ri1 : RecipientInfo ι :=
        match ri.PropertiesKvpairs with
        | some kv => ⟨some ⟨stripDatabricksProperties kv.Properties⟩, ri.Rest⟩
        | none => ri
      let r := StructToData ri1 d
      (r.1, r.2, s1)

/-! ## Update -/

/-- The `Update` function of the resource. -/
def Update {σ ρ ι ε : Type} [Inhabited ρ] (c : DatabricksClient σ ρ ι ε)
    (d : ResourceData ρ) (s : World σ ρ ε) : Option (Err ε) × World σ ρ ε :=
  match c.WorkspaceClient with
  | .error err => (some err, s)
  | .ok w =>
    let mapped := DataToStructPointer d
    let updateRecipientRequest : UpdateRecipient ρ := ⟨d.Id, mapped.Owner, mapped.Rest⟩
    let ownerStep : Option (Err ε) × World σ ρ ε :=
      if d.HasChangeOwner then
        callUpdate w ⟨updateRecipientRequest.Name, updateRecipientRequest.Owner, default⟩ s
      else
        (none, s)
    match ownerStep with
    | (some err, s1) => (some err, s1)
    | (none, s1) =>
      if !d.HasChangeExceptOwner then
        (none, s1)
      else
        match callUpdate w ⟨updateRecipientRequest.Name, "", updateRecipientRequest.Rest⟩ s1 with
        | (none, s2) => (none, s2)
        | (some err, s2) =>
          if d.HasChangeOwner then
            let change := d.GetChangeOwner
            match callUpdate w ⟨updateRecipientRequest.Name, change.1, default⟩ s2 with
            | (some rollbackErr, s3) =>
              (some (OwnerRollbackError err rollbackErr change.1 change.2), s3)
            | (none, s3) => (some err, s3)
          else
            (some err, s2)

/-! ## Sample inputs -/

/-- A remote service whose n-th update call is answered by the n-th entry of
`script` (nil once the script is used up); its state counts the calls.  It
knows no recipient by name. -/
def scriptedService (script : List (Option (Err String))) :
    WorkspaceClient Nat (List String) Unit String :=
  ⟨⟨fun _ n => (.error (.remote "not found"), n), fun _ n => (script.getD n none, n + 1)⟩⟩

/-- A client handle that yields `scriptedService script`. -/
def scriptedClient (script : List (Option (Err String))) :
    DatabricksClient Nat (List String) Unit String :=
  ⟨.ok (scriptedService script)⟩

/-- Resource `r1`: the owner goes from `alice` to `bob` and another field
changes too. -/
def bothChanged : ResourceData (List String) :=
  ⟨"r1", "alice", ⟨"ignored", "bob", ["comment"]⟩, true⟩

/-- Resource `r1`: only the owner changes, from `alice` to `bob`. -/
def ownerOnlyChanged : ResourceData (List String) :=
  ⟨"r1", "alice", ⟨"ignored", "bob", ["comment"]⟩, false⟩

/-- Resource `r1`: the owner stays `alice`, another field changes. -/
def restOnlyChanged : ResourceData (List String) :=
  ⟨"r1", "alice", ⟨"ignored", "alice", ["comment"]⟩, true⟩

/-- A property map with one server-managed key and one user key. -/
def sampleProperties : StringMap :=
  AList.insert "databricks.name" "srv" (AList.insert "team" "data" ∅)

/-- A remote service that knows every name and answers with
`sampleProperties`. -/
def fetchService : WorkspaceClient Nat (List String) Unit String :=
  ⟨⟨fun _ n => (.ok ⟨some ⟨sampleProperties⟩, ()⟩, n + 1), fun _ n => (none, n + 1)⟩⟩

/-- A client handle that yields `fetchService`. -/
def fetchClient : DatabricksClient Nat (List String) Unit String :=
  ⟨.ok fetchService⟩

/-- A state mapper that leaves the resource data as it is. -/
def keepData (_ : RecipientInfo Unit) (d : ResourceData (List String)) :
    Option (Err String) × ResourceData (List String) :=
  (none, d)

/-! ## Auxiliary facts -/

set_option maxRecDepth 4000 in
/-- The size-indicator path does not start with the server-managed key
path. -/
theorem sizePath_not_databricks :
    HasPrefix "properties_kvpairs.0.properties.%"
      "properties_kvpairs.0.properties.databricks." = false := by
  decide

/-- A combined rollback error differs from the original failure it wraps. -/
theorem Err.rollback_ne_left {ε : Type} (e r : Err ε) (o n : String) :
    Err.rollback e r o n ≠ e := by
  intro h
  have hsize := congrArg sizeOf h
  simp at hsize
  omega

/-- A combined rollback error differs from the rollback failure it wraps. -/
theorem Err.rollback_ne_right {ε : Type} (e r : Err ε) (o n : String) :
    Err.rollback e r o n ≠ r := by
  intro h
  have hsize := congrArg sizeOf h
  simp at hsize
  omega

/-- On a list with distinct keys, erasing a key keeps exactly the entries
with another key. -/
theorem kerase_eq_filter_of_nodupKeys (a : String)
    (l : List (Sigma fun _ : String => String)) (nd : l.NodupKeys) :
    l.kerase a = l.filter (fun p => !decide (p.1 = a)) := by
  induction l with
  | nil => rfl
  | cons hd tl ih =>
    rw [List.nodupKeys_cons] at nd
    by_cases h : a = hd.1
    · subst h
      rw [List.kerase_cons_eq rfl]
      have htl : tl.filter (fun p => !decide (p.1 = hd.1)) = tl := by
        rw [List.filter_eq_self]
        intro p hp
        have hk : p.1 ∈ tl.keys := List.mem_keys_of_mem hp
        have hne : p.1 ≠ hd.1 := fun hEq => nd.1 (hEq ▸ hk)
        simpa using hne
      simp only [List.filter_cons, decide_True, Bool.not_true]
      exact htl.symm
    · rw [List.kerase_cons_ne h, ih nd.2]
      have h2 : hd.1 ≠ a := fun hEq => h hEq.symm
      simp [h2]

/-- Entries left by the deletion loop after it has visited the keys `ks`. -/
theorem strip_fold_entries (ks : List String) (acc : StringMap) :
    (ks.foldl (fun acc k => if HasPrefix k "databricks." then acc.erase k else acc) acc).entries
      = acc.entries.filter
          (fun p => !(decide (p.1 ∈ ks) && HasPrefix p.1 "databricks.")) := by
  induction ks generalizing acc with
  | nil => simp
  | cons k ks ih =>
    rw [List.foldl_cons, ih]
    by_cases hk : HasPrefix k "databricks." = true
    · simp only [hk, if_true, AList.erase]
      rw [kerase_eq_filter_of_nodupKeys k acc.entries acc.nodupKeys, List.filter_filter]
      apply List.filter_congr
      intro p _
      by_cases hp : p.1 = k
      · simp [hp, hk]
      · simp [hp]
    · simp only [hk]
      apply List.filter_congr
      intro p _
      by_cases hp : p.1 = k
      · have hfalse : HasPrefix p.1 "databricks." = false := by
          rw [hp]; simpa using hk
        simp [hfalse]
      · simp [hp]

/-- The deletion loop keeps exactly the entries whose key does not start with
`databricks.`, in their order. -/
theorem strip_entries (m : StringMap) :
    (stripDatabricksProperties m).entries
      = m.entries.filter (fun p => !HasPrefix p.1 "databricks.") := by
  unfold stripDatabricksProperties
  rw [strip_fold_entries]
  apply List.filter_congr
  intro p hp
  have hmem : p.1 ∈ m.keys := List.mem_keys_of_mem hp
  simp [hmem]

/-- No key starting with `databricks.` survives the deletion loop. -/
theorem strip_not_mem (m : StringMap) (k : String)
    (hk : HasPrefix k "databricks." = true) : k ∉ stripDatabricksProperties m := by
  rw [AList.mem_keys, AList.keys, strip_entries, List.mem_keys]
  rintro ⟨v, hv⟩
  rw [List.mem_filter] at hv
  simp [hk] at hv

/-- Keys that do not start with `databricks.` keep their value (or their
absence) through the deletion loop. -/
theorem strip_lookup (m : StringMap) (k : String)
    (hk : HasPrefix k "databricks." = false) :
    (stripDatabricksProperties m).lookup k = m.lookup k := by
  unfold stripDatabricksProperties
  generalize m.keys = ks
  induction ks generalizing m with
  | nil => rfl
  | cons k0 ks ih =>
    rw [List.foldl_cons, ih]
    by_cases h0 : HasPrefix k0 "databricks." = true
    · have hne : k ≠ k0 := by
        intro h; rw [h, h0] at hk; exact Bool.noConfusion hk
      simp only [h0, if_true]
      exact AList.lookup_erase_ne hne
    · simp [h0]

/-! ## Diff suppression -/

/-- C8.  On the path `properties_kvpairs.0.properties.%` the suppression
predicate returns true when old is "1" and new is "0", and false for every
other pair of old and new values. -/
theorem suppress_size_indicator (old new : String) :
    recepientPropertiesSuppressDiff "properties_kvpairs.0.properties.%" old new
      = decide (old = "1" ∧ new = "0") := by
  simp [recepientPropertiesSuppressDiff, sizePath_not_databricks]

/-- C9.  On every path that starts with
`properties_kvpairs.0.properties.databricks.`, and for every old value, the
suppression predicate returns true when the new value is empty and false when
it is not. -/
theorem suppress_server_managed_key (k old new : String)
    (hk : HasPrefix k "properties_kvpairs.0.properties.databricks." = true) :
    (new = "" → recepientPropertiesSuppressDiff k old new = true) ∧
      (new ≠ "" → recepientPropertiesSuppressDiff k old new = false) := by
  have hne : k ≠ "properties_kvpairs.0.properties.%" := by
    intro h
    rw [h, sizePath_not_databricks] at hk
    exact Bool.noConfusion hk
  constructor
  · intro hnew
    simp [recepientPropertiesSuppressDiff, hk, hnew]
  · intro hnew
    simp [recepientPropertiesSuppressDiff, hne, hnew]

set_option maxRecDepth 4000 in
/-- Witness of C9 at the path of the property `databricks.name`. -/
theorem suppress_server_managed_key_witness :
    HasPrefix "properties_kvpairs.0.properties.databricks.name"
        "properties_kvpairs.0.properties.databricks." = true ∧
      recepientPropertiesSuppressDiff
        "properties_kvpairs.0.properties.databricks.name" "srv" "" = true ∧
      recepientPropertiesSuppressDiff
        "properties_kvpairs.0.properties.databricks.name" "srv" "x" = false :=
  ⟨by decide,
   (suppress_server_managed_key
      "properties_kvpairs.0.properties.databricks.name" "srv" "" (by decide)).1 rfl,
   (suppress_server_managed_key
      "properties_kvpairs.0.properties.databricks.name" "srv" "x" (by decide)).2 (by decide)⟩

/-! ## Read -/

/-- C7.  When get-by-name returns a recipient whose property container is
not nil, Read hands the state mapper that recipient with its property map
replaced by a map that has no key starting with `databricks.`, agrees with the
fetched map on every other key, and consists of exactly the fetched entries
whose key does not start with `databricks.`. -/
theorem Read_strips_databricks_keys {σ ρ ι ε : Type}
    (StructToData : RecipientInfo ι → ResourceData ρ → Option (Err ε) × ResourceData ρ)
    (c : DatabricksClient σ ρ ι ε) (w : WorkspaceClient σ ρ ι ε) (d : ResourceData ρ)
    (s s1 : σ) (ri : RecipientInfo ι) (kv : SecurablePropertiesKvPairs)
    (hc : c.WorkspaceClient = .ok w)
    (hget : w.Recipients.GetByName d.Id s = (.ok ri, s1))
    (hkv : ri.PropertiesKvpairs = some kv) :
    ∃ m : StringMap,
      Read StructToData c d s
          = ((StructToData ⟨some ⟨m⟩, ri.Rest⟩ d).1, (StructToData ⟨some ⟨m⟩, ri.Rest⟩ d).2, s1) ∧
        (∀ k : String, HasPrefix k "databricks." = true → k ∉ m) ∧
        (∀ k : String, HasPrefix k "databricks." = false →
          m.lookup k = kv.Properties.lookup k) ∧
        m.entries = kv.Properties.entries.filter (fun p => !HasPrefix p.1 "databricks.") := by
  refine ⟨stripDatabricksProperties kv.Properties, ?_, ?_, ?_, ?_⟩
  · simp [Read, hc, hget, hkv]
  · exact fun k hk => strip_not_mem kv.Properties k hk
  · exact fun k hk => strip_lookup kv.Properties k hk
  · exact strip_entries kv.Properties

/-- Witness of C7: a fetched map with the keys `databricks.name` and
`team`. -/
theorem Read_strips_databricks_keys_witness :
    fetchClient.WorkspaceClient = .ok fetchService ∧
      fetchService.Recipients.GetByName bothChanged.Id 0
        = (.ok ⟨some ⟨sampleProperties⟩, ()⟩, 1) ∧
      ∃ m : StringMap,
        Read keepData fetchClient bothChanged 0
            = ((keepData ⟨some ⟨m⟩, ()⟩ bothChanged).1,
               (keepData ⟨some ⟨m⟩, ()⟩ bothChanged).2, 1) ∧
          (∀ k : String, HasPrefix k "databricks." = true → k ∉ m) ∧
          (∀ k : String, HasPrefix k "databricks." = false →
            m.lookup k = sampleProperties.lookup k) ∧
          m.entries = sampleProperties.entries.filter (fun p => !HasPrefix p.1 "databricks.") :=
  ⟨rfl, rfl,
   Read_strips_databricks_keys keepData fetchClient fetchService bothChanged 0 1
     ⟨some ⟨sampleProperties⟩, ()⟩ ⟨sampleProperties⟩ rfl rfl rfl⟩

/-! ## Update -/

/-- C1.  When owner and another field changed, the owner-only call succeeds
and the second call fails with `e`, Update issues a third call whose request
carries only the resource id as name and the prior owner; if that third call
succeeds, Update returns exactly `e`. -/
theorem Update_rollback_issued {σ ρ ι ε : Type} [Inhabited ρ]
    (c : DatabricksClient σ ρ ι ε) (w : WorkspaceClient σ ρ ι ε) (d : ResourceData ρ)
    (s s1 s2 : σ) (e : Err ε)
    (hc : c.WorkspaceClient = .ok w)
    (hown : d.HasChangeOwner = true) (hother : d.HasChangeExceptOwner = true)
    (h1 : w.Recipients.Update ⟨d.Id, d.GetChangeOwner.2, default⟩ s = (none, s1))
    (h2 : w.Recipients.Update ⟨d.Id, "", (DataToStructPointer d).Rest⟩ s1 = (some e, s2)) :
    (Update c d ⟨s, []⟩).2.calls =
        [(⟨d.Id, d.GetChangeOwner.2, default⟩, none),
         (⟨d.Id, "", (DataToStructPointer d).Rest⟩, some e),
         (⟨d.Id, d.GetChangeOwner.1, default⟩,
           (w.Recipients.Update ⟨d.Id, d.GetChangeOwner.1, default⟩ s2).1)] ∧
      ((w.Recipients.Update ⟨d.Id, d.GetChangeOwner.1, default⟩ s2).1 = none →
        (Update c d ⟨s, []⟩).1 = some e) := by
  simp only [ResourceData.GetChangeOwner, DataToStructPointer] at h1 h2 ⊢
  cases h3 : w.Recipients.Update ⟨d.Id, d.priorOwner, default⟩ s2 with
  | mk r3 s3 =>
    cases r3 <;>
      simp [Update, hc, hown, hother, callUpdate, h1, h2, h3, DataToStructPointer,
        ResourceData.GetChangeOwner]

/-- Witness of C1: the second call fails with `boom`, the rollback succeeds. -/
theorem Update_rollback_issued_witness :
    (Update (scriptedClient [none, some (.remote "boom"), none]) bothChanged ⟨0, []⟩).2.calls =
        [(⟨"r1", "bob", []⟩, none),
         (⟨"r1", "", ["comment"]⟩, some (.remote "boom")),
         (⟨"r1", "alice", []⟩, none)] ∧
      (Update (scriptedClient [none, some (.remote "boom"), none]) bothChanged ⟨0, []⟩).1
        = some (.remote "boom") :=
  ⟨(Update_rollback_issued (scriptedClient [none, some (.remote "boom"), none])
      (scriptedService [none, some (.remote "boom"), none]) bothChanged 0 1 2
      (.remote "boom") rfl (by decide) rfl rfl rfl).1,
   (Update_rollback_issued (scriptedClient [none, some (.remote "boom"), none])
      (scriptedService [none, some (.remote "boom"), none]) bothChanged 0 1 2
      (.remote "boom") rfl (by decide) rfl rfl rfl).2 rfl⟩

/-- C2.  When the owner-only call succeeds, the second call fails with `e`
and the owner-restoring call fails with `r`, Update returns the combined error
`OwnerRollbackError e r oldOwner newOwner`, which is neither `e` nor `r`. -/
theorem Update_rollback_fails {σ ρ ι ε : Type} [Inhabited ρ]
    (c : DatabricksClient σ ρ ι ε) (w : WorkspaceClient σ ρ ι ε) (d : ResourceData ρ)
    (s s1 s2 s3 : σ) (e r : Err ε)
    (hc : c.WorkspaceClient = .ok w)
    (hown : d.HasChangeOwner = true) (hother : d.HasChangeExceptOwner = true)
    (h1 : w.Recipients.Update ⟨d.Id, d.GetChangeOwner.2, default⟩ s = (none, s1))
    (h2 : w.Recipients.Update ⟨d.Id, "", (DataToStructPointer d).Rest⟩ s1 = (some e, s2))
    (h3 : w.Recipients.Update ⟨d.Id, d.GetChangeOwner.1, default⟩ s2 = (some r, s3)) :
    (Update c d ⟨s, []⟩).1
        = some (OwnerRollbackError e r d.GetChangeOwner.1 d.GetChangeOwner.2) ∧
      (Update c d ⟨s, []⟩).1 ≠ some e ∧
      (Update c d ⟨s, []⟩).1 ≠ some r := by
  have hres : (Update c d ⟨s, []⟩).1
      = some (OwnerRollbackError e r d.GetChangeOwner.1 d.GetChangeOwner.2) := by
    simp only [ResourceData.GetChangeOwner, DataToStructPointer] at h1 h2 h3 ⊢
    simp [Update, hc, hown, hother, callUpdate, h1, h2, h3, DataToStructPointer,
      ResourceData.GetChangeOwner]
  refine ⟨hres, ?_, ?_⟩
  · rw [hres]
    intro h
    exact Err.rollback_ne_left e r _ _ (Option.some.inj h)
  · rw [hres]
    intro h
    exact Err.rollback_ne_right e r _ _ (Option.some.inj h)

/-- Witness of C2: the second call fails with `boom`, the rollback with
`down`. -/
theorem Update_rollback_fails_witness :
    (Update (scriptedClient [none, some (.remote "boom"), some (.remote "down")])
        bothChanged ⟨0, []⟩).1
        = some (OwnerRollbackError (.remote "boom") (.remote "down") "alice" "bob") ∧
      (Update (scriptedClient [none, some (.remote "boom"), some (.remote "down")])
        bothChanged ⟨0, []⟩).1 ≠ some (.remote "boom") ∧
      (Update (scriptedClient [none, some (.remote "boom"), some (.remote "down")])
        bothChanged ⟨0, []⟩).1 ≠ some (.remote "down") :=
  Update_rollback_fails (scriptedClient [none, some (.remote "boom"), some (.remote "down")])
    (scriptedService [none, some (.remote "boom"), some (.remote "down")]) bothChanged
    0 1 2 3 (.remote "boom") (.remote "down") rfl (by decide) rfl rfl rfl rfl

/-- C3.  When owner changed and the owner-only call fails with `e`, Update
returns exactly `e` and that call is the only remote update call, whether or
not other fields changed. -/
theorem Update_owner_call_fails {σ ρ ι ε : Type} [Inhabited ρ]
    (c : DatabricksClient σ ρ ι ε) (w : WorkspaceClient σ ρ ι ε) (d : ResourceData ρ)
    (s s1 : σ) (e : Err ε)
    (hc : c.WorkspaceClient = .ok w)
    (hown : d.HasChangeOwner = true)
    (h1 : w.Recipients.Update ⟨d.Id, d.GetChangeOwner.2, default⟩ s = (some e, s1)) :
    (Update c d ⟨s, []⟩).1 = some e ∧
      (Update c d ⟨s, []⟩).2.calls = [(⟨d.Id, d.GetChangeOwner.2, default⟩, some e)] ∧
      (Update c d ⟨s, []⟩).2.remote = s1 := by
  simp only [ResourceData.GetChangeOwner, DataToStructPointer] at h1 ⊢
  simp [Update, hc, hown, callUpdate, h1, DataToStructPointer]

/-- Witness of C3: the owner-only call fails with `boom` while another field
changed too. -/
theorem Update_owner_call_fails_witness :
    (Update (scriptedClient [some (.remote "boom")]) bothChanged ⟨0, []⟩).1
        = some (.remote "boom") ∧
      (Update (scriptedClient [some (.remote "boom")]) bothChanged ⟨0, []⟩).2.calls
        = [(⟨"r1", "bob", []⟩, some (.remote "boom"))] ∧
      (Update (scriptedClient [some (.remote "boom")]) bothChanged ⟨0, []⟩).2.remote = 1 :=
  Update_owner_call_fails (scriptedClient [some (.remote "boom")])
    (scriptedService [some (.remote "boom")]) bothChanged 0 1 (.remote "boom")
    rfl (by decide) rfl

/-- Counterexample to C4 as stated: with owner and another field changed,
a failing owner-only call leaves one remote update call, and a failing second
call leads to three. -/
theorem Update_two_calls_counterexample :
    bothChanged.HasChangeOwner = true ∧ bothChanged.HasChangeExceptOwner = true ∧
      (Update (scriptedClient [some (.remote "boom")]) bothChanged ⟨0, []⟩).2.calls.map Prod.fst
        = [⟨"r1", "bob", []⟩] ∧
      (Update (scriptedClient [none, some (.remote "boom"), none])
          bothChanged ⟨0, []⟩).2.calls.map Prod.fst
        = [⟨"r1", "bob", []⟩, ⟨"r1", "", ["comment"]⟩, ⟨"r1", "alice", []⟩] := by
  decide

/-- C4, amended.  When owner and another field changed and the owner-only
call succeeds, the first two remote update calls are, in this order, the
owner-only request (name the resource id, owner the new owner, every other
field empty) and the full mapped request with name forced to the resource id
and owner cleared; when that second call succeeds too, these are the only
calls and Update returns nil. -/
theorem Update_owner_then_rest {σ ρ ι ε : Type} [Inhabited ρ]
    (c : DatabricksClient σ ρ ι ε) (w : WorkspaceClient σ ρ ι ε) (d : ResourceData ρ)
    (s s1 : σ)
    (hc : c.WorkspaceClient = .ok w)
    (hown : d.HasChangeOwner = true) (hother : d.HasChangeExceptOwner = true)
    (h1 : w.Recipients.Update ⟨d.Id, d.GetChangeOwner.2, default⟩ s = (none, s1)) :
    (Update c d ⟨s, []⟩).2.calls.take 2 =
        [(⟨d.Id, d.GetChangeOwner.2, default⟩, none),
         (⟨d.Id, "", (DataToStructPointer d).Rest⟩,
           (w.Recipients.Update ⟨d.Id, "", (DataToStructPointer d).Rest⟩ s1).1)] ∧
      ((w.Recipients.Update ⟨d.Id, "", (DataToStructPointer d).Rest⟩ s1).1 = none →
        (Update c d ⟨s, []⟩).1 = none ∧
        (Update c d ⟨s, []⟩).2.calls =
          [(⟨d.Id, d.GetChangeOwner.2, default⟩, none),
           (⟨d.Id, "", (DataToStructPointer d).Rest⟩, none)]) := by
  simp only [ResourceData.GetChangeOwner, DataToStructPointer] at h1 ⊢
  cases h2 : w.Recipients.Update ⟨d.Id, "", d.planned.Rest⟩ s1 with
  | mk r2 s2 =>
    cases r2 with
    | none =>
      simp [Update, hc, hown, hother, callUpdate, h1, h2, DataToStructPointer]
    | some e =>
      cases h3 : w.Recipients.Update ⟨d.Id, d.priorOwner, default⟩ s2 with
      | mk r3 s3 =>
        cases r3 <;>
          simp [Update, hc, hown, hother, callUpdate, h1, h2, h3, DataToStructPointer,
            ResourceData.GetChangeOwner]

/-- Witness of amended C4: both calls succeed. -/
theorem Update_owner_then_rest_witness :
    (Update (scriptedClient []) bothChanged ⟨0, []⟩).2.calls.take 2 =
        [(⟨"r1", "bob", []⟩, none), (⟨"r1", "", ["comment"]⟩, none)] ∧
      (Update (scriptedClient []) bothChanged ⟨0, []⟩).1 = none ∧
      (Update (scriptedClient []) bothChanged ⟨0, []⟩).2.calls =
        [(⟨"r1", "bob", []⟩, none), (⟨"r1", "", ["comment"]⟩, none)] :=
  ⟨(Update_owner_then_rest (scriptedClient []) (scriptedService []) bothChanged 0 1
      rfl (by decide) rfl rfl).1,
   (Update_owner_then_rest (scriptedClient []) (scriptedService []) bothChanged 0 1
      rfl (by decide) rfl rfl).2 rfl⟩

/-- C5.  When owner changed and no other field changed, exactly one remote
update call is made, its request carries only the resource id as name and the
new owner, and Update returns the result of that call. -/
theorem Update_only_owner_changed {σ ρ ι ε : Type} [Inhabited ρ]
    (c : DatabricksClient σ ρ ι ε) (w : WorkspaceClient σ ρ ι ε) (d : ResourceData ρ)
    (s : σ)
    (hc : c.WorkspaceClient = .ok w)
    (hown : d.HasChangeOwner = true) (hother : d.HasChangeExceptOwner = false) :
    (Update c d ⟨s, []⟩).1
        = (w.Recipients.Update ⟨d.Id, d.GetChangeOwner.2, default⟩ s).1 ∧
      (Update c d ⟨s, []⟩).2.calls =
        [(⟨d.Id, d.GetChangeOwner.2, default⟩,
          (w.Recipients.Update ⟨d.Id, d.GetChangeOwner.2, default⟩ s).1)] ∧
      (Update c d ⟨s, []⟩).2.remote
        = (w.Recipients.Update ⟨d.Id, d.GetChangeOwner.2, default⟩ s).2 := by
  simp only [ResourceData.GetChangeOwner, DataToStructPointer]
  cases h1 : w.Recipients.Update ⟨d.Id, d.planned.Owner, default⟩ s with
  | mk r1 s1 =>
    cases r1 <;> simp [Update, hc, hown, hother, callUpdate, h1, DataToStructPointer]

/-- Witness of C5: the single owner-only call succeeds. -/
theorem Update_only_owner_changed_witness :
    (Update (scriptedClient []) ownerOnlyChanged ⟨0, []⟩).1 = none ∧
      (Update (scriptedClient []) ownerOnlyChanged ⟨0, []⟩).2.calls
        = [(⟨"r1", "bob", []⟩, none)] ∧
      (Update (scriptedClient []) ownerOnlyChanged ⟨0, []⟩).2.remote = 1 :=
  Update_only_owner_changed (scriptedClient []) (scriptedService []) ownerOnlyChanged 0
    rfl (by decide) rfl

/-- C6.  When owner did not change, another field changed and the single
remote update call (owner cleared) fails with `e`, Update returns exactly `e`
and makes no rollback call: that call is the only one. -/
theorem Update_rest_fails_without_owner_change {σ ρ ι ε : Type} [Inhabited ρ]
    (c : DatabricksClient σ ρ ι ε) (w : WorkspaceClient σ ρ ι ε) (d : ResourceData ρ)
    (s s1 : σ) (e : Err ε)
    (hc : c.WorkspaceClient = .ok w)
    (hown : d.HasChangeOwner = false) (hother : d.HasChangeExceptOwner = true)
    (h2 : w.Recipients.Update ⟨d.Id, "", (DataToStructPointer d).Rest⟩ s = (some e, s1)) :
    (Update c d ⟨s, []⟩).1 = some e ∧
      (Update c d ⟨s, []⟩).2.calls
        = [(⟨d.Id, "", (DataToStructPointer d).Rest⟩, some e)] ∧
      (Update c d ⟨s, []⟩).2.remote = s1 := by
  simp only [DataToStructPointer] at h2 ⊢
  simp [Update, hc, hown, hother, callUpdate, h2, DataToStructPointer]

/-- Witness of C6: the only call fails with `boom`. -/
theorem Update_rest_fails_without_owner_change_witness :
    (Update (scriptedClient [some (.remote "boom")]) restOnlyChanged ⟨0, []⟩).1
        = some (.remote "boom") ∧
      (Update (scriptedClient [some (.remote "boom")]) restOnlyChanged ⟨0, []⟩).2.calls
        = [(⟨"r1", "", ["comment"]⟩, some (.remote "boom"))] ∧
      (Update (scriptedClient [some (.remote "boom")]) restOnlyChanged ⟨0, []⟩).2.remote = 1 :=
  Update_rest_fails_without_owner_change (scriptedClient [some (.remote "boom")])
    (scriptedService [some (.remote "boom")]) restOnlyChanged 0 1 (.remote "boom")
    rfl (by decide) rfl rfl

/-- C10.  Once the client handle is obtained, Update returns nil exactly when
every remote update call it issued returned nil; when neither owner nor any
other field changed it issues no call and returns nil; and when some issued
call fails it returns an error. -/
theorem Update_never_swallows_failure {σ ρ ι ε : Type} [Inhabited ρ]
    (c : DatabricksClient σ ρ ι ε) (w : WorkspaceClient σ ρ ι ε) (d : ResourceData ρ)
    (s : σ)
    (hc : c.WorkspaceClient = .ok w) :
    ((Update c d ⟨s, []⟩).1 = none ↔
        ∀ call ∈ (Update c d ⟨s, []⟩).2.calls, call.2 = none) ∧
      (d.HasChangeOwner = false → d.HasChangeExceptOwner = false →
        (Update c d ⟨s, []⟩).1 = none ∧ (Update c d ⟨s, []⟩).2.calls = []) ∧
      ((∃ call ∈ (Update c d ⟨s, []⟩).2.calls, call.2 ≠ none) →
        (Update c d ⟨s, []⟩).1 ≠ none) := by
  have hiff : (Update c d ⟨s, []⟩).1 = none ↔
      ∀ call ∈ (Update c d ⟨s, []⟩).2.calls, call.2 = none := by
    simp only [Update, hc, callUpdate, DataToStructPointer, ResourceData.Id,
      ResourceData.GetChangeOwner]
    cases d.HasChangeOwner <;> cases d.HasChangeExceptOwner <;> simp
    · rcases w.Recipients.Update ⟨d.id, "", d.planned.Rest⟩ s with ⟨_ | e2, s2⟩ <;> simp
    · rcases w.Recipients.Update ⟨d.id, d.planned.Owner, default⟩ s with ⟨_ | e1, s1⟩ <;> simp
    · rcases w.Recipients.Update ⟨d.id, d.planned.Owner, default⟩ s with ⟨_ | e1, s1⟩
      · simp only []
        rcases w.Recipients.Update ⟨d.id, "", d.planned.Rest⟩ s1 with ⟨_ | e2, s2⟩
        · simp
          rintro a b (⟨-, rfl⟩ | ⟨-, rfl⟩) <;> rfl
        · simp only []
          rcases w.Recipients.Update ⟨d.id, d.priorOwner, default⟩ s2 with ⟨_ | e3, s3⟩ <;>
            simp <;>
            exact ⟨_, some e2, Or.inr (Or.inl ⟨rfl, rfl⟩), by simp⟩
      · simp
  refine ⟨hiff, ?_, ?_⟩
  · intro hown hother
    simp [Update, hc, hown, hother]
  · rintro ⟨call, hmem, hne⟩ hnone
    exact hne (hiff.mp hnone call hmem)

/-- Witness of C10: a run whose second call fails and whose rollback
succeeds. -/
theorem Update_never_swallows_failure_witness :
    (scriptedClient [none, some (.remote "boom"), none]).WorkspaceClient
        = .ok (scriptedService [none, some (.remote "boom"), none]) ∧
      (Update (scriptedClient [none, some (.remote "boom"), none])
          bothChanged ⟨0, []⟩).1 ≠ none :=
  ⟨rfl,
   (Update_never_swallows_failure (scriptedClient [none, some (.remote "boom"), none])
      (scriptedService [none, some (.remote "boom"), none]) bothChanged 0 rfl).2.2
      ⟨(⟨"r1", "", ["comment"]⟩, some (.remote "boom")), by decide, by decide⟩⟩

end sharing
